import Mathlib

/-!
Shallow embedding of the Quran word-position bounds query scripts
(`example_usage.py`, `explore_database.py`).

The store is a static snapshot of two tables, `word_bounds` and
`glyph_bounds`.  Each script function opens a connection, issues one
parameterized SELECT and returns the rows; we model a table as a list of
records in storage order, a WHERE clause as `List.filter`, an ORDER BY
clause as a sort by the corresponding (total, transitive) relation, and
`fetchone` as `List.head?` of the filtered rows.
-/

/-- A row of the `word_bounds` table. -/
structure WordBound where
  page_number : Int
  sura_number : Int
  ayah_number : Int
  word_position : Int
  arabic_word : String
  min_x : Int
  max_x : Int
  min_y : Int
  max_y : Int
deriving DecidableEq, Repr

/-- A row of the `glyph_bounds` table. -/
structure GlyphBound where
  page_number : Int
  line_number : Int
  line_position : Int
  line_type : String
  min_x : Int
  max_x : Int
  min_y : Int
  max_y : Int
deriving DecidableEq, Repr

/-- The bounds store: the contents of the two tables, in storage order. -/
structure DB where
  word_bounds : List WordBound
  glyph_bounds : List GlyphBound
deriving DecidableEq, Repr

/-- The `ORDER BY min_y, min_x` relation of `highlight_words_in_area`. -/
@[reducible] def regionOrder (a b : WordBound) : Prop :=
  a.min_y < b.min_y ∨ (a.min_y = b.min_y ∧ a.min_x ≤ b.min_x)

instance : IsTotal WordBound regionOrder :=
  ⟨fun a b => by unfold regionOrder; omega⟩

instance : IsTrans WordBound regionOrder :=
  ⟨fun a b c => by unfold regionOrder; omega⟩

/-- The WHERE clause of `highlight_words_in_area`: on the page and fully
contained in the query box. -/
@[reducible] def inRegion (page x1 y1 x2 y2 : Int) (w : WordBound) : Prop :=
  w.page_number = page ∧ x1 ≤ w.min_x ∧ w.max_x ≤ x2 ∧ y1 ≤ w.min_y ∧ w.max_y ≤ y2

/-- `highlight_words_in_area(x1, y1, x2, y2, page_num)` from
`example_usage.py`: SELECT rows of `word_bounds` WHERE `page_number = ?
AND min_x >= ? AND max_x <= ? AND min_y >= ? AND max_y <= ?`
ORDER BY `min_y, min_x`. -/
def highlight_words_in_area (db : DB) (x1 y1 x2 y2 page_num : Int) : List WordBound :=
  List.insertionSort regionOrder
    (db.word_bounds.filter (fun w => decide (inRegion page_num x1 y1 x2 y2 w)))

/-- `highlight_words_in_area` called without an explicit page argument:
the Python default is `page_num=2`. -/
def highlight_words_in_area_default (db : DB) (x1 y1 x2 y2 : Int) : List WordBound :=
  highlight_words_in_area db x1 y1 x2 y2 2

theorem mem_highlight_words_in_area (db : DB) (x1 y1 x2 y2 page w) :
    w ∈ highlight_words_in_area db x1 y1 x2 y2 page ↔
      w ∈ db.word_bounds ∧ inRegion page x1 y1 x2 y2 w := by
  unfold highlight_words_in_area
  rw [List.mem_insertionSort, List.mem_filter, decide_eq_true_iff]

/-- C1: `wordsInRegion(page, box)` returns exactly the words on `page`
whose box is fully contained in the query box (so a word with
`max_x > box.max_x` is never returned, even when its `min_x < box.max_x`),
ordered by (`min_y` ascending, `min_x` ascending); an empty result is the
normal empty sequence of the same total function, not an error. -/
theorem wordsInRegion_contained_and_ordered (db : DB) (page x1 y1 x2 y2 : Int) :
    (∀ w, w ∈ highlight_words_in_area db x1 y1 x2 y2 page ↔
      w ∈ db.word_bounds ∧ w.page_number = page ∧
        x1 ≤ w.min_x ∧ w.max_x ≤ x2 ∧ y1 ≤ w.min_y ∧ w.max_y ≤ y2) ∧
    (∀ w ∈ highlight_words_in_area db x1 y1 x2 y2 page, ¬ x2 < w.max_x) ∧
    List.Pairwise (fun a b => a.min_y < b.min_y ∨ (a.min_y = b.min_y ∧ a.min_x ≤ b.min_x))
      (highlight_words_in_area db x1 y1 x2 y2 page) := by
  refine ⟨fun w => mem_highlight_words_in_area db x1 y1 x2 y2 page w, ?_, ?_⟩
  · intro w hw
    obtain ⟨-, -, -, h, -, -⟩ := (mem_highlight_words_in_area db x1 y1 x2 y2 page w).mp hw
    omega
  · exact List.sorted_insertionSort regionOrder _

/-- C10: calling `highlight_words_in_area` without an explicit page
argument queries page 2, the Python default `page_num=2`. -/
theorem highlight_default_page_is_two (db : DB) (x1 y1 x2 y2 : Int) :
    highlight_words_in_area_default db x1 y1 x2 y2 =
      highlight_words_in_area db x1 y1 x2 y2 2 := rfl

/-- The WHERE clause of `word_click_handler`: on the page and the point
inside the box, inclusive on all four sides. -/
@[reducible] def containsPoint (page x y : Int) (w : WordBound) : Prop :=
  w.page_number = page ∧ w.min_x ≤ x ∧ x ≤ w.max_x ∧ w.min_y ≤ y ∧ y ≤ w.max_y

/-- `word_click_handler(x, y, page_num)` from `example_usage.py`:
SELECT rows of `word_bounds` WHERE `page_number = ? AND ? >= min_x AND
? <= max_x AND ? >= min_y AND ? <= max_y`, then `fetchone()`: the first
matching row in storage order, or `None`. -/
def word_click_handler (db : DB) (x y page_num : Int) : Option WordBound :=
  (db.word_bounds.filter (fun w => decide (containsPoint page_num x y w))).head?

/-- The word of the spec's hit-test example scenario. -/
def exampleWord : WordBound :=
  { page_number := 2, sura_number := 2, ayah_number := 1, word_position := 1,
    arabic_word := "alm", min_x := 100, max_x := 150, min_y := 10, max_y := 30 }

/-- A store holding only the example word. -/
def exampleDB : DB := { word_bounds := [exampleWord], glyph_bounds := [] }

/-- C2: `hitTest(page, x, y)` returns a word only if that record is on
`page` and its box contains the point inclusively on all sides; it
returns `none` (absence, not an error) when no word box on the page
contains the point; and on a store holding a word with
`min_x=100, max_x=150, min_y=10, max_y=30` on page 2, `hitTest(2,125,20)`
returns that word while `hitTest(2,99,20)` returns absent. -/
theorem hitTest_contains_point (db : DB) (page x y : Int) :
    (∀ w, word_click_handler db x y page = some w →
      w ∈ db.word_bounds ∧ w.page_number = page ∧
        w.min_x ≤ x ∧ x ≤ w.max_x ∧ w.min_y ≤ y ∧ y ≤ w.max_y) ∧
    ((∀ w ∈ db.word_bounds, ¬ containsPoint page x y w) →
      word_click_handler db x y page = none) ∧
    word_click_handler exampleDB 125 20 2 = some exampleWord ∧
    word_click_handler exampleDB 99 20 2 = none := by
  refine ⟨?_, ?_, by decide, by decide⟩
  · intro w h
    have hw : w ∈ db.word_bounds.filter (fun w => decide (containsPoint page x y w)) :=
      List.mem_of_mem_head? (Option.mem_def.mpr h)
    have := (List.mem_filter.mp hw).2
    exact ⟨(List.mem_filter.mp hw).1, of_decide_eq_true this⟩
  · intro hnone
    unfold word_click_handler
    have : db.word_bounds.filter (fun w => decide (containsPoint page x y w)) = [] := by
      rw [List.filter_eq_nil_iff]
      intro a ha
      simpa using hnone a ha
    rw [this]
    rfl

/-- The `ORDER BY word_position` relation of `get_ayah_words`. -/
@[reducible] def ayahOrder (a b : WordBound) : Prop :=
  a.word_position ≤ b.word_position

instance : IsTotal WordBound ayahOrder :=
  ⟨fun a b => by unfold ayahOrder; omega⟩

instance : IsTrans WordBound ayahOrder :=
  ⟨fun a b c => by unfold ayahOrder; omega⟩

/-- `get_ayah_words(sura_num, ayah_num)` from `example_usage.py`:
SELECT rows of `word_bounds` WHERE `sura_number = ? AND ayah_number = ?`
ORDER BY `word_position`. -/
def get_ayah_words (db : DB) (sura_num ayah_num : Int) : List WordBound :=
  List.insertionSort ayahOrder
    (db.word_bounds.filter (fun w =>
      decide (w.sura_number = sura_num ∧ w.ayah_number = ayah_num)))

/-- C7: `wordsForAyah(sura, ayah)` returns exactly the words with that
`sura_number` and `ayah_number`, sorted by `word_position` ascending;
only the ordering is claimed, no contiguity of `word_position` values. -/
theorem wordsForAyah_complete_and_ordered (db : DB) (sura ayah : Int) :
    (∀ w, w ∈ get_ayah_words db sura ayah ↔
      w ∈ db.word_bounds ∧ w.sura_number = sura ∧ w.ayah_number = ayah) ∧
    List.Pairwise (fun a b => a.word_position ≤ b.word_position)
      (get_ayah_words db sura ayah) := by
  constructor
  · intro w
    unfold get_ayah_words
    rw [List.mem_insertionSort, List.mem_filter, decide_eq_true_iff]
  · exact List.sorted_insertionSort ayahOrder _

/-- The `ORDER BY page_number, sura_number, ayah_number, word_position`
relation of `find_word_occurrences`. -/
@[reducible] def occOrder (a b : WordBound) : Prop :=
  a.page_number < b.page_number ∨ (a.page_number = b.page_number ∧
    (a.sura_number < b.sura_number ∨ (a.sura_number = b.sura_number ∧
      (a.ayah_number < b.ayah_number ∨ (a.ayah_number = b.ayah_number ∧
        a.word_position ≤ b.word_position)))))

instance : IsTotal WordBound occOrder :=
  ⟨fun a b => by unfold occOrder; omega⟩

instance : IsTrans WordBound occOrder :=
  ⟨fun a b c => by unfold occOrder; omega⟩

/-- `find_word_occurrences(arabic_word)` from `example_usage.py` (and
`find_word_positions` in `explore_database.py`): SELECT rows of
`word_bounds` WHERE `arabic_word = ?` ORDER BY
`page_number, sura_number, ayah_number, word_position`. -/
def find_word_occurrences (db : DB) (arabic_word : String) : List WordBound :=
  List.insertionSort occOrder
    (db.word_bounds.filter (fun w => decide (w.arabic_word = arabic_word)))

/-- C6: `occurrencesOfWord(text)` returns exactly the words whose
`arabic_word` equals the text, ordered by
(`page_number`, `sura_number`, `ayah_number`, `word_position`) ascending;
and since the result is a pure function of the store and the text, two
calls with the same text against the same store return the very same
sequence, hence the same order. -/
theorem occurrencesOfWord_exact_match_and_ordered (db : DB) (text : String) :
    (∀ w, w ∈ find_word_occurrences db text ↔
      w ∈ db.word_bounds ∧ w.arabic_word = text) ∧
    List.Pairwise occOrder (find_word_occurrences db text) ∧
    find_word_occurrences db text = find_word_occurrences db text := by
  refine ⟨?_, List.sorted_insertionSort occOrder _, rfl⟩
  intro w
  unfold find_word_occurrences
  rw [List.mem_insertionSort, List.mem_filter, decide_eq_true_iff]

/-- The `GROUP BY line_number, line_type` key of a glyph row. -/
def glyphKey (g : GlyphBound) : Int × String :=
  (g.line_number, g.line_type)

/-- The `ORDER BY line_number` relation of `get_page_layout` on group keys. -/
@[reducible] def keyOrder (a b : Int × String) : Prop :=
  a.1 ≤ b.1

instance : IsTotal (Int × String) keyOrder :=
  ⟨fun a b => by unfold keyOrder; omega⟩

instance : IsTrans (Int × String) keyOrder :=
  ⟨fun a b c => by unfold keyOrder; omega⟩

/-- The glyph rows of a page, in storage order (the WHERE clause of
`get_page_layout`). -/
def pageGlyphs (db : DB) (page_num : Int) : List GlyphBound :=
  db.glyph_bounds.filter (fun g => decide (g.page_number = page_num))

/-- One `GROUP BY line_number, line_type` group of `get_page_layout`. -/
def layoutGroup (db : DB) (page_num ln : Int) (lt : String) : List GlyphBound :=
  (pageGlyphs db page_num).filter (fun g => decide (g.line_number = ln ∧ g.line_type = lt))

/-- SQL `MIN(f(row))` over a group; `0` on the empty list, which a SQL
`GROUP BY` never produces. -/
def aggMin (f : GlyphBound → Int) : List GlyphBound → Int
  | [] => 0
  | g :: gs => gs.foldl (fun a h => min a (f h)) (f g)

/-- SQL `MAX(f(row))` over a group; `0` on the empty list, which a SQL
`GROUP BY` never produces. -/
def aggMax (f : GlyphBound → Int) : List GlyphBound → Int
  | [] => 0
  | g :: gs => gs.foldl (fun a h => max a (f h)) (f g)

/-- One output row of `get_page_layout`: a line summary with the glyph
count and the union bounding box of the group. -/
structure LineSummary where
  line_number : Int
  line_type : String
  glyph_count : Nat
  top : Int
  bottom : Int
  left : Int
  right : Int
deriving DecidableEq, Repr

/-- The aggregate row `get_page_layout` produces for one group. -/
def summarizeGroup (ln : Int) (lt : String) (gs : List GlyphBound) : LineSummary :=
  { line_number := ln, line_type := lt, glyph_count := gs.length,
    top := aggMin (fun g => g.min_y) gs, bottom := aggMax (fun g => g.max_y) gs,
    left := aggMin (fun g => g.min_x) gs, right := aggMax (fun g => g.max_x) gs }

/-- `get_page_layout(page_num)` from `example_usage.py`: SELECT
`line_number, line_type, COUNT(*), MIN(min_y), MAX(max_y), MIN(min_x),
MAX(max_x)` FROM `glyph_bounds` WHERE `page_number = ?` GROUP BY
`line_number, line_type` ORDER BY `line_number`. -/
def get_page_layout (db : DB) (page_num : Int) : List LineSummary :=
  (List.insertionSort keyOrder ((pageGlyphs db page_num).map glyphKey).dedup).map
    (fun k => summarizeGroup k.1 k.2 (layoutGroup db page_num k.1 k.2))

theorem foldl_min_spec (f : GlyphBound → Int) (l : List GlyphBound) :
    ∀ init : Int,
      l.foldl (fun a h => min a (f h)) init ≤ init ∧
      (∀ g ∈ l, l.foldl (fun a h => min a (f h)) init ≤ f g) ∧
      (l.foldl (fun a h => min a (f h)) init = init ∨
        ∃ g ∈ l, l.foldl (fun a h => min a (f h)) init = f g) := by
  induction l with
  | nil => intro init; exact ⟨le_refl _, by simp, Or.inl rfl⟩
  | cons g t ih =>
    intro init
    obtain ⟨h1, h2, h3⟩ := ih (min init (f g))
    rw [List.foldl_cons]
    refine ⟨le_trans h1 (min_le_left _ _), ?_, ?_⟩
    · intro x hx
      rcases List.mem_cons.mp hx with hx | hx
      · subst hx; exact le_trans h1 (min_le_right _ _)
      · exact h2 x hx
    · rcases h3 with h3 | ⟨x, hx, h3⟩
      · rcases min_choice init (f g) with hc | hc
        · exact Or.inl (h3.trans hc)
        · exact Or.inr ⟨g, List.mem_cons_self g t, h3.trans hc⟩
      · exact Or.inr ⟨x, List.mem_cons_of_mem g hx, h3⟩

theorem foldl_max_spec (f : GlyphBound → Int) (l : List GlyphBound) :
    ∀ init : Int,
      init ≤ l.foldl (fun a h => max a (f h)) init ∧
      (∀ g ∈ l, f g ≤ l.foldl (fun a h => max a (f h)) init) ∧
      (l.foldl (fun a h => max a (f h)) init = init ∨
        ∃ g ∈ l, l.foldl (fun a h => max a (f h)) init = f g) := by
  induction l with
  | nil => intro init; exact ⟨le_refl _, by simp, Or.inl rfl⟩
  | cons g t ih =>
    intro init
    obtain ⟨h1, h2, h3⟩ := ih (max init (f g))
    rw [List.foldl_cons]
    refine ⟨le_trans (le_max_left _ _) h1, ?_, ?_⟩
    · intro x hx
      rcases List.mem_cons.mp hx with hx | hx
      · subst hx; exact le_trans (le_max_right _ _) h1
      · exact h2 x hx
    · rcases h3 with h3 | ⟨x, hx, h3⟩
      · rcases max_choice init (f g) with hc | hc
        · exact Or.inl (h3.trans hc)
        · exact Or.inr ⟨g, List.mem_cons_self g t, h3.trans hc⟩
      · exact Or.inr ⟨x, List.mem_cons_of_mem g hx, h3⟩

theorem aggMin_le (f : GlyphBound → Int) {l : List GlyphBound} {g : GlyphBound}
    (hg : g ∈ l) : aggMin f l ≤ f g := by
  cases l with
  | nil => cases hg
  | cons a t =>
    obtain ⟨h1, h2, -⟩ := foldl_min_spec f t (f a)
    rcases List.mem_cons.mp hg with hg | hg
    · exact hg ▸ h1
    · exact h2 g hg

theorem aggMin_attained (f : GlyphBound → Int) {l : List GlyphBound} (hl : l ≠ []) :
    ∃ g ∈ l, f g = aggMin f l := by
  cases l with
  | nil => exact absurd rfl hl
  | cons a t =>
    obtain ⟨-, -, h3⟩ := foldl_min_spec f t (f a)
    rcases h3 with h3 | ⟨x, hx, h3⟩
    · exact ⟨a, List.mem_cons_self a t, h3.symm⟩
    · exact ⟨x, List.mem_cons_of_mem a hx, h3.symm⟩

theorem aggMax_le (f : GlyphBound → Int) {l : List GlyphBound} {g : GlyphBound}
    (hg : g ∈ l) : f g ≤ aggMax f l := by
  cases l with
  | nil => cases hg
  | cons a t =>
    obtain ⟨h1, h2, -⟩ := foldl_max_spec f t (f a)
    rcases List.mem_cons.mp hg with hg | hg
    · exact hg ▸ h1
    · exact h2 g hg

theorem aggMax_attained (f : GlyphBound → Int) {l : List GlyphBound} (hl : l ≠ []) :
    ∃ g ∈ l, f g = aggMax f l := by
  cases l with
  | nil => exact absurd rfl hl
  | cons a t =>
    obtain ⟨-, -, h3⟩ := foldl_max_spec f t (f a)
    rcases h3 with h3 | ⟨x, hx, h3⟩
    · exact ⟨a, List.mem_cons_self a t, h3.symm⟩
    · exact ⟨x, List.mem_cons_of_mem a hx, h3.symm⟩

@[simp] theorem summarizeGroup_line_number (ln : Int) (lt : String) (gs : List GlyphBound) :
    (summarizeGroup ln lt gs).line_number = ln := rfl

@[simp] theorem summarizeGroup_line_type (ln : Int) (lt : String) (gs : List GlyphBound) :
    (summarizeGroup ln lt gs).line_type = lt := rfl

@[simp] theorem summarizeGroup_glyph_count (ln : Int) (lt : String) (gs : List GlyphBound) :
    (summarizeGroup ln lt gs).glyph_count = gs.length := rfl

@[simp] theorem summarizeGroup_top (ln : Int) (lt : String) (gs : List GlyphBound) :
    (summarizeGroup ln lt gs).top = aggMin (fun g => g.min_y) gs := rfl

@[simp] theorem summarizeGroup_bottom (ln : Int) (lt : String) (gs : List GlyphBound) :
    (summarizeGroup ln lt gs).bottom = aggMax (fun g => g.max_y) gs := rfl

@[simp] theorem summarizeGroup_left (ln : Int) (lt : String) (gs : List GlyphBound) :
    (summarizeGroup ln lt gs).left = aggMin (fun g => g.min_x) gs := rfl

@[simp] theorem summarizeGroup_right (ln : Int) (lt : String) (gs : List GlyphBound) :
    (summarizeGroup ln lt gs).right = aggMax (fun g => g.max_x) gs := rfl

theorem mem_layoutGroup (db : DB) (page ln : Int) (lt : String) (g : GlyphBound) :
    g ∈ layoutGroup db page ln lt ↔
      g ∈ db.glyph_bounds ∧ g.page_number = page ∧ g.line_number = ln ∧ g.line_type = lt := by
  unfold layoutGroup pageGlyphs
  rw [List.mem_filter, List.mem_filter]
  simp [and_assoc]

/-- C5: `pageLayout(page)` partitions the glyphs of `page` into groups
keyed by (`line_number`, `line_type`) and emits one summary per
non-empty group — carrying the group's glyph count and its union
bounding box (minimum of the members' `min_y`/`min_x`, maximum of their
`max_y`/`max_x`, each bound attained by some member) — with every glyph
of the page covered by exactly one summary of its key, and the summaries
ordered by `line_number` ascending. -/
theorem pageLayout_grouping (db : DB) (page : Int) :
    List.Pairwise (fun a b => a.line_number ≤ b.line_number) (get_page_layout db page) ∧
    (∀ s ∈ get_page_layout db page,
      layoutGroup db page s.line_number s.line_type ≠ [] ∧
      s.glyph_count = (layoutGroup db page s.line_number s.line_type).length ∧
      (∀ g ∈ layoutGroup db page s.line_number s.line_type,
        s.top ≤ g.min_y ∧ g.max_y ≤ s.bottom ∧ s.left ≤ g.min_x ∧ g.max_x ≤ s.right) ∧
      (∃ g ∈ layoutGroup db page s.line_number s.line_type, g.min_y = s.top) ∧
      (∃ g ∈ layoutGroup db page s.line_number s.line_type, g.max_y = s.bottom) ∧
      (∃ g ∈ layoutGroup db page s.line_number s.line_type, g.min_x = s.left) ∧
      (∃ g ∈ layoutGroup db page s.line_number s.line_type, g.max_x = s.right)) ∧
    (∀ g ∈ db.glyph_bounds, g.page_number = page →
      ∃ s ∈ get_page_layout db page,
        s.line_number = g.line_number ∧ s.line_type = g.line_type) ∧
    List.Pairwise (fun a b => ¬ (a.line_number = b.line_number ∧ a.line_type = b.line_type))
      (get_page_layout db page) := by
  refine ⟨?_, ?_, ?_, ?_⟩
  · unfold get_page_layout
    rw [List.pairwise_map]
    exact List.Pairwise.imp (fun h => by simpa using h)
      (List.sorted_insertionSort keyOrder _)
  · intro s hs
    unfold get_page_layout at hs
    rcases List.mem_map.mp hs with ⟨k, hk, rfl⟩
    rw [List.mem_insertionSort, List.mem_dedup] at hk
    rcases List.mem_map.mp hk with ⟨g, hg, hkey⟩
    have hgmem : g ∈ layoutGroup db page k.1 k.2 := by
      rw [mem_layoutGroup]
      have h1 := (List.mem_filter.mp hg).1
      have h2 := of_decide_eq_true (List.mem_filter.mp hg).2
      exact ⟨h1, h2, by rw [← hkey]; rfl, by rw [← hkey]; rfl⟩
    have hne : layoutGroup db page k.1 k.2 ≠ [] := List.ne_nil_of_mem hgmem
    simp only [summarizeGroup_line_number, summarizeGroup_line_type,
      summarizeGroup_glyph_count, summarizeGroup_top, summarizeGroup_bottom,
      summarizeGroup_left, summarizeGroup_right]
    refine ⟨hne, trivial, ?_, ?_, ?_, ?_, ?_⟩
    · intro x hx
      exact ⟨aggMin_le _ hx, aggMax_le _ hx, aggMin_le _ hx, aggMax_le _ hx⟩
    · exact aggMin_attained _ hne
    · exact aggMax_attained _ hne
    · exact aggMin_attained _ hne
    · exact aggMax_attained _ hne
  · intro g hg hpage
    have hpg : g ∈ pageGlyphs db page :=
      List.mem_filter.mpr ⟨hg, decide_eq_true hpage⟩
    have hk : glyphKey g ∈ List.insertionSort keyOrder
        ((pageGlyphs db page).map glyphKey).dedup := by
      rw [List.mem_insertionSort, List.mem_dedup]
      exact List.mem_map_of_mem glyphKey hpg
    refine ⟨summarizeGroup (glyphKey g).1 (glyphKey g).2
      (layoutGroup db page (glyphKey g).1 (glyphKey g).2), ?_, rfl, rfl⟩
    unfold get_page_layout
    exact List.mem_map_of_mem _ hk
  · unfold get_page_layout
    rw [List.pairwise_map]
    have hnd : (List.insertionSort keyOrder
        ((pageGlyphs db page).map glyphKey).dedup).Nodup :=
      ((List.perm_insertionSort keyOrder _).nodup_iff).mpr (List.nodup_dedup _)
    exact List.Pairwise.imp
      (fun h hc => h (Prod.ext (by simpa using hc.1) (by simpa using hc.2))) hnd

/-- The failure conditions of the spec's taxonomy.  In the scripts an
unusable store surfaces as a raised sqlite3 exception (or as the `None`
connection of `explore_database.connect_db`), modelled here as
`storeUnavailable`; `invalidArgument` is named by the spec for malformed
query parameters. -/
inductive QueryError where
  | storeUnavailable
  | invalidArgument
deriving DecidableEq, Repr

/-- A store as seen by the scripts: a table snapshot together with
whether it can actually be opened and read.  When `readable` is false
(missing `word_bounds`/`glyph_bounds` table, corrupt file), the
`cursor.execute` call raises. -/
structure Store where
  readable : Bool
  db : DB
deriving DecidableEq, Repr

/-- The five lookup operations of `example_usage.py`. -/
inductive Op where
  | regionQ (x1 y1 x2 y2 page_num : Int)
  | ayahQ (sura_num ayah_num : Int)
  | occQ (arabic_word : String)
  | layoutQ (page_num : Int)
  | hitQ (x y page_num : Int)
deriving DecidableEq, Repr

/-- The possible row sets a lookup returns. -/
inductive Output where
  | words (rows : List WordBound)
  | layout (rows : List LineSummary)
  | hit (row : Option WordBound)
deriving DecidableEq, Repr

/-- The pure query step of each operation: what `cursor.execute` plus
`fetchall`/`fetchone` computes from the table snapshot. -/
def runQuery (op : Op) (db : DB) : Output :=
  match op with
  | .regionQ x1 y1 x2 y2 p => .words (highlight_words_in_area db x1 y1 x2 y2 p)
  | .ayahQ s a => .words (get_ayah_words db s a)
  | .occQ w => .words (find_word_occurrences db w)
  | .layoutQ p => .layout (get_page_layout db p)
  | .hitQ x y p => .hit (word_click_handler db x y p)

/-- A lookup as a state transformer on the store contents: each script
function runs a single SELECT, which reads the tables and writes
nothing, and returns the snapshot it read from. -/
def runOp (op : Op) (db : DB) : Output × DB :=
  (runQuery op db, db)

/-- A lookup against a store that may be unusable: a raised sqlite3
exception propagates out of the script function at once (there is no
retry loop and no partially built row list in any of the five
functions), modelled as `Except.error QueryError.storeUnavailable`. -/
def runLookup (s : Store) (op : Op) : Except QueryError Output :=
  if s.readable then Except.ok (runQuery op s.db) else Except.error QueryError.storeUnavailable

/-- One invocation of `highlight_words_in_area` including its connection
lifecycle, paired with whether the connection handle is still open when
the invocation exits.  In `example_usage.py` the `conn.close()` call
sits on the straight-line path with no try/finally, so Python skips it
when `cursor.execute` raises: the handle stays open on that path. -/
def highlight_words_in_area_run (s : Store) (x1 y1 x2 y2 page_num : Int) :
    Except QueryError (List WordBound) × Bool :=
  if s.readable then
    (Except.ok (highlight_words_in_area s.db x1 y1 x2 y2 page_num), false)
  else
    (Except.error QueryError.storeUnavailable, true)

/-- C8: no operation mutates the store: for every operation the table
snapshot after the call equals the snapshot before it, and the only
effect is the read — each operation's value is exactly its query
function applied to the unchanged snapshot. -/
theorem operations_read_only (db : DB) :
    (∀ op, (runOp op db).2 = db) ∧
    (∀ x1 y1 x2 y2 p, runOp (Op.regionQ x1 y1 x2 y2 p) db =
      (Output.words (highlight_words_in_area db x1 y1 x2 y2 p), db)) ∧
    (∀ sura ayah, runOp (Op.ayahQ sura ayah) db =
      (Output.words (get_ayah_words db sura ayah), db)) ∧
    (∀ w, runOp (Op.occQ w) db = (Output.words (find_word_occurrences db w), db)) ∧
    (∀ p, runOp (Op.layoutQ p) db = (Output.layout (get_page_layout db p), db)) ∧
    (∀ x y p, runOp (Op.hitQ x y p) db = (Output.hit (word_click_handler db x y p), db)) :=
  ⟨fun _ => rfl, fun _ _ _ _ _ => rfl, fun _ _ => rfl, fun _ => rfl, fun _ => rfl,
    fun _ _ _ => rfl⟩

/-- C4: every lookup operation against a store that cannot be opened or
read fails at once with the `storeUnavailable` condition — a single
attempt with no retry — and returns no result, partial or otherwise. -/
theorem lookup_unavailable_store_errors (s : Store) (op : Op)
    (h : s.readable = false) :
    runLookup s op = Except.error QueryError.storeUnavailable ∧
    ∀ out, runLookup s op ≠ Except.ok out := by
  have he : runLookup s op = Except.error QueryError.storeUnavailable := by
    unfold runLookup
    rw [h]
    rfl
  exact ⟨he, fun out hc => Except.noConfusion (he ▸ hc)⟩

theorem lookup_unavailable_store_errors_witness :
    (Store.mk false exampleDB).readable = false ∧
    runLookup (Store.mk false exampleDB) (Op.occQ "alm") =
      Except.error QueryError.storeUnavailable :=
  ⟨rfl, (lookup_unavailable_store_errors (Store.mk false exampleDB) (Op.occQ "alm") rfl).1⟩

/-- C3 counterexample: a region query whose box has min > max does NOT
fail with `invalidArgument` — on a readable store it returns the normal
(here empty) row list: the scripts never validate query parameters. -/
theorem malformed_box_no_invalidArgument :
    runLookup (Store.mk true exampleDB) (Op.regionQ 10 0 0 400 2) ≠
      Except.error QueryError.invalidArgument ∧
    runLookup (Store.mk true exampleDB) (Op.regionQ 10 0 0 400 2) =
      Except.ok (Output.words []) := by
  have h : runLookup (Store.mk true exampleDB) (Op.regionQ 10 0 0 400 2) =
      Except.ok (Output.words []) := rfl
  exact ⟨fun hc => Except.noConfusion (h ▸ hc), h⟩

/-- C3 amended: a region query whose box has min > max is answered as a
normal lookup; given the stored-box invariant (`min_x ≤ max_x`,
`min_y ≤ max_y` on every row) it returns the normal empty row list, not
an error condition. -/
theorem malformed_box_returns_empty (s : Store) (x1 y1 x2 y2 page : Int)
    (hread : s.readable = true)
    (hinv : ∀ w ∈ s.db.word_bounds, w.min_x ≤ w.max_x ∧ w.min_y ≤ w.max_y)
    (hmal : x2 < x1 ∨ y2 < y1) :
    runLookup s (Op.regionQ x1 y1 x2 y2 page) = Except.ok (Output.words []) := by
  have hempty : highlight_words_in_area s.db x1 y1 x2 y2 page = [] := by
    unfold highlight_words_in_area
    have : s.db.word_bounds.filter
        (fun w => decide (inRegion page x1 y1 x2 y2 w)) = [] := by
      rw [List.filter_eq_nil_iff]
      intro w hw
      have := hinv w hw
      simp only [decide_eq_true_eq]
      unfold inRegion
      omega
    rw [this]
    rfl
  simp [runLookup, runQuery, hread, hempty]

theorem malformed_box_returns_empty_witness :
    (Store.mk true exampleDB).readable = true ∧
    (∀ w ∈ (Store.mk true exampleDB).db.word_bounds,
      w.min_x ≤ w.max_x ∧ w.min_y ≤ w.max_y) ∧
    ((0 : Int) < 10 ∨ (400 : Int) < 0) ∧
    runLookup (Store.mk true exampleDB) (Op.regionQ 10 0 0 400 2) =
      Except.ok (Output.words []) :=
  ⟨rfl, by decide, Or.inl (by decide),
    malformed_box_returns_empty (Store.mk true exampleDB) 10 0 0 400 2 rfl
      (by decide) (Or.inl (by decide))⟩

/-- C9: on the error path of `highlight_words_in_area` the invocation
exits with the connection handle still open — `conn.close()` is not in a
try/finally, so an exception raised by `cursor.execute` (here: a store
whose table cannot be read) skips it — while on the success path the
handle is closed.  This contradicts the spec's scoped-lifetime
requirement for error paths. -/
theorem highlight_leaks_handle_on_error :
    (highlight_words_in_area_run (Store.mk false exampleDB) 0 0 600 400 2).2 = true ∧
    (highlight_words_in_area_run (Store.mk true exampleDB) 0 0 600 400 2).2 = false := by
  decide
